import Mathlib

/-!
# Passport-post store: verification of the nested-array management logic

Shallow embedding of `src/controllers/passportController.js` (the passport-post
CRUD handlers).  Posts are documents holding an ordered list of embedded
passport entries; handlers operate on an in-memory list of posts that stands
for the document collection returned by `PassportPost.find()` (in storage
order).  Timestamps are modelled as natural numbers (milliseconds); document
and entry identifiers as naturals; the authenticated caller as an id plus a
role string.  Each handler takes the current store and returns the HTTP-level
result together with the store after any save/delete.
-/

namespace PassportApp

/-- The optional/caller-settable fields of a passport entry other than the
identifier and `postDate`: `passportNumber`, `link`, `issuedCountry`, `city`,
`slipNo`, `otherDetails`.  `none` models a field absent from the object. -/
structure EntryFields where
  passportNumber : Option String
  link : Option String
  issuedCountry : Option String
  city : Option String
  slipNo : Option String
  otherDetails : Option String
deriving DecidableEq, Repr

/-- A stored passport entry (an element of a post's `passports` array):
its `_id`, its `postDate` timestamp and the remaining fields. -/
structure Passport where
  id : Nat
  postDate : Nat
  fields : EntryFields
deriving DecidableEq, Repr

/-- A caller-supplied entry object from a request body: it may or may not
carry an `_id`, may or may not carry a `postDate`, plus the other fields. -/
structure PayloadEntry where
  suppliedId : Option Nat
  suppliedPostDate : Option Nat
  fields : EntryFields
deriving DecidableEq, Repr

/-- A stored `PassportPost` document: its `_id`, the owner (`createdBy`),
the last updater (`updatedBy`, absent until first update) and the embedded
`passports` array. -/
structure PassportPost where
  id : Nat
  createdBy : Nat
  updatedBy : Option Nat
  passports : List Passport
deriving DecidableEq, Repr

/-- The authenticated caller (`req.user`): identifier and role string. -/
structure User where
  id : Nat
  role : String
deriving DecidableEq, Repr

/-- The collection of posts, in storage (`PassportPost.find()`) order. -/
abbrev Store := List PassportPost

/-- Result of a handler: success payload, or an error with HTTP status code
and message (`ErrorResponse`). -/
inductive HRes (α : Type) where
  | ok : α → HRes α
  | err : Nat → String → HRes α
deriving DecidableEq, Repr

/-- `getCurrentIST`: current time shifted by 5 hours 30 minutes
(`now + 5.5 * 60 * 60 * 1000` milliseconds). -/
def getCurrentIST (nowMs : Nat) : Nat := nowMs + 19800000

/-- An entry as produced by the controller just before persisting: the
identifier it will request (absent means the storage layer generates one),
the definite `postDate` the controller assigned, and the other fields. -/
structure ProcessedEntry where
  procId : Option Nat
  procPostDate : Nat
  procFields : EntryFields
deriving DecidableEq, Repr

/-- JavaScript `String.prototype.trim`, as invoked by the schema's
`trim: true` setters (`passportSchema`, second document of
`src/db/connection.js`): strip leading and trailing whitespace. -/
def jsTrim (s : String) : String :=
  ⟨((s.data.dropWhile Char.isWhitespace).reverse.dropWhile Char.isWhitespace).reverse⟩

/-- The `trim: true` setters of the embedded-entry schema
(`src/db/connection.js`): `passportNumber`, `city`, `slipNo`,
`issuedCountry` and `otherDetails` are stored trimmed; `link` declares no
trim. -/
def trimFields (f : EntryFields) : EntryFields :=
  { passportNumber := f.passportNumber.map jsTrim
    link := f.link
    city := f.city.map jsTrim
    slipNo := f.slipNo.map jsTrim
    issuedCountry := f.issuedCountry.map jsTrim
    otherDetails := f.otherDetails.map jsTrim }

/-- The body of the schema's URL pattern on `link` after the scheme prefix:
one or more characters, none of which is a space or a double quote. -/
def matchesUrlTail (cs : List Char) : Bool :=
  !cs.isEmpty && cs.all fun c => !(c == ' ') && !(c == '"')

/-- The `match` validator on `link` (`src/db/connection.js`): the pattern
anchors the whole string as `http` or `https`, then `://`, then one or more
characters excluding space and double quote. -/
def matchesUrlPattern (s : String) : Bool :=
  (s.data.take 7 == ['h', 't', 't', 'p', ':', '/', '/'] && matchesUrlTail (s.data.drop 7))
  || (s.data.take 8 == ['h', 't', 't', 'p', 's', ':', '/', '/'] && matchesUrlTail (s.data.drop 8))

/-- A `required` String path of the schema: the value must be present and a
non-empty string. -/
def requiredString (o : Option String) : Bool :=
  match o with
  | some s => !s.data.isEmpty
  | none => false

/-- The embedded-entry validators of `passportSchema`
(`src/db/connection.js`), applied to the stored (setter-trimmed) field
values: `passportNumber` required (its commented-out length bounds impose
nothing more); `link` required and matching the URL pattern;
`issuedCountry` required with length between 2 and 50; `city`, `slipNo`,
`otherDetails` optional. -/
def validEntryFields (f : EntryFields) : Bool :=
  requiredString f.passportNumber
  && requiredString f.link
  && matchesUrlPattern (f.link.getD "")
  && requiredString f.issuedCountry
  && decide (2 ≤ (f.issuedCountry.getD "").data.length)
  && decide ((f.issuedCountry.getD "").data.length ≤ 50)

/-- Casting the controller's processed entries into `passportSchema`'s
subdocument array (`passports: [{...}]`, `src/db/connection.js`): the array
declares no `_id` path and does not disable it, so per Mongoose subdocument
semantics each entry saved with an `_id` keeps it, and an entry saved
without one is assigned a fresh identifier — `freshIds k` for the entry at
position `k`.  The `trim: true` setters are applied to the string fields.
The controller sets `postDate` on every entry it saves through this path,
so the schema's `default: Date.now` on `postDate` never fires here. -/
def castEntriesAux (freshIds : Nat → Nat) : Nat → List ProcessedEntry → List Passport
  | _, [] => []
  | k, e :: rest =>
    { id := e.procId.getD (freshIds k), postDate := e.procPostDate,
      fields := trimFields e.procFields } :: castEntriesAux freshIds (k + 1) rest

/-- Cast a whole processed entries list through the schema's subdocument
array (see `castEntriesAux`). -/
def castEntries (freshIds : Nat → Nat) (xs : List ProcessedEntry) : List Passport :=
  castEntriesAux freshIds 0 xs

/-- Schema validation of a `create`/`save` of an entries list
(`src/db/connection.js`): every embedded entry must satisfy
`validEntryFields`; otherwise the operation throws a ValidationError and
nothing is persisted. -/
def validEntries (l : List Passport) : Bool :=
  l.all fun q => validEntryFields q.fields

/-- `PassportPost.findById`: first post in the store with the given id. -/
def findPost (s : Store) (pid : Nat) : Option PassportPost :=
  s.find? fun p => p.id == pid

/-- Replace-on-save: `post.save()` writes the document back over the stored
document with the same id. -/
def savePost (s : Store) (p : PassportPost) : Store :=
  s.map fun q => if q.id == p.id then p else q

/-- `passports.findIndex(p => p._id.toString() === passportId)` fused with
the element access: the first entry with the given id, together with its
index. -/
def findEntry (l : List Passport) (eid : Nat) : Option (Nat × Passport) :=
  match l with
  | [] => none
  | q :: rest =>
    if q.id = eid then some (0, q)
    else (findEntry rest eid).map fun r => (r.1 + 1, r.2)

/-- The locate-by-scan loop shared by the single-entry handlers: walk every
post in storage order and return the first post whose `passports` array
contains the identifier, with the entry's index and the entry itself. -/
def locatePassport (s : Store) (eid : Nat) : Option (PassportPost × Nat × Passport) :=
  match s with
  | [] => none
  | p :: rest =>
    match findEntry p.passports eid with
    | some r => some (p, r.1, r.2)
    | none => locatePassport rest eid

/-- The document a successful `createPassportPost` stores: owned by the
caller, each supplied entry stamped with the current IST `postDate`
(overwriting any caller-supplied value) and cast through the schema's
subdocument array. -/
def createdPost (u : User) (body : List PayloadEntry) (nowMs freshPostId : Nat)
    (freshIds : Nat → Nat) : PassportPost :=
  { id := freshPostId, createdBy := u.id, updatedBy := none,
    passports := castEntries freshIds (body.map fun p =>
      { procId := p.suppliedId, procPostDate := getCurrentIST nowMs,
        procFields := p.fields }) }

/-- `createPassportPost`: requires a non-empty `passports` array, then stores
`createdPost` via `PassportPost.create`, which runs the schema validators.  A
validation failure rejects the create and persists nothing; the resulting
error passes through the app's error middleware (not under `src/`), so its
status and message here are representative only and no theorem inspects
them. -/
def createPassportPost (s : Store) (u : User) (body : List PayloadEntry)
    (nowMs : Nat) (freshPostId : Nat) (freshIds : Nat → Nat) :
    HRes PassportPost × Store :=
  if body.isEmpty then
    (.err 400 "At least one passport entry is required", s)
  else if validEntries (createdPost u body nowMs freshPostId freshIds).passports then
    (.ok (createdPost u body nowMs freshPostId freshIds),
      s ++ [createdPost u body nowMs freshPostId freshIds])
  else
    (.err 500 "Passport validation failed", s)

/-- The per-entry step of `updatePassportPost`'s `map` over the request's
`passports`: an entry whose supplied `_id` matches an existing entry of the
post keeps that entry's `_id` and `postDate` and takes every other field from
the payload; any other entry keeps its supplied fields (including a supplied
`_id` that matched nothing) and is stamped with the current IST time. -/
def processUpdateEntry (orig : PassportPost) (currentIST : Nat) (p : PayloadEntry) :
    ProcessedEntry :=
  match p.suppliedId with
  | some pid =>
    match orig.passports.find? (fun q => q.id == pid) with
    | some ex => { procId := some ex.id, procPostDate := ex.postDate, procFields := p.fields }
    | none => { procId := p.suppliedId, procPostDate := currentIST, procFields := p.fields }
  | none => { procId := none, procPostDate := currentIST, procFields := p.fields }

/-- The post's new state as built by a successful `updatePassportPost`: the
whole `passports` array replaced by the processed entries cast through the
schema, `updatedBy` set to the caller. -/
def updatedPost (u : User) (orig : PassportPost) (body : List PayloadEntry)
    (nowMs : Nat) (freshIds : Nat → Nat) : PassportPost :=
  { orig with
    passports :=
      castEntries freshIds (body.map (processUpdateEntry orig (getCurrentIST nowMs))),
    updatedBy := some u.id }

/-- The body of `updatePassportPost` once the post was fetched: 403 unless the
caller is the owner or an admin; 400 on an empty entries list; otherwise
replace the post's entries, set `updatedBy`, and `save()`.  The save runs the
schema validators on the new entries; a failure throws, is caught by the
handler's `catch`, and surfaces as a 500 with nothing persisted. -/
def updatePostFound (s : Store) (u : User) (orig : PassportPost)
    (body : List PayloadEntry) (nowMs : Nat) (freshIds : Nat → Nat) :
    HRes PassportPost × Store :=
  if orig.createdBy ≠ u.id ∧ u.role ≠ "admin" then
    (.err 403 "Not authorized to update this post", s)
  else if body.isEmpty then
    (.err 400 "At least one passport entry is required", s)
  else if validEntries (updatedPost u orig body nowMs freshIds).passports then
    (.ok (updatedPost u orig body nowMs freshIds),
      savePost s (updatedPost u orig body nowMs freshIds))
  else
    (.err 500 "Error updating passport post", s)

/-- `updatePassportPost`: 404 if the post id is unknown, else `updatePostFound`. -/
def updatePassportPost (s : Store) (u : User) (pid : Nat) (body : List PayloadEntry)
    (nowMs : Nat) (freshIds : Nat → Nat) : HRes PassportPost × Store :=
  match findPost s pid with
  | none => (.err 404 "Post not found", s)
  | some orig => updatePostFound s u orig body nowMs freshIds

/-- The object `{ _id: originalPassport._id, ...req.body, postDate:
originalPassport.postDate }` of `updateSinglePassport`.  JavaScript spread
semantics: the body is spread after `_id` is set, so a body-supplied `_id`
overrides the original one; `postDate` is set last, so the original
`postDate` always wins. -/
def mkUpdatedPassport (orig : Passport) (body : PayloadEntry) : Passport :=
  { id := body.suppliedId.getD orig.id,
    postDate := orig.postDate,
    fields := body.fields }

/-- The body of `updateSinglePassport` once the entry was located: 403 unless
the caller owns the containing post or is an admin; otherwise replace the
entry in place with `mkUpdatedPassport`, set `updatedBy`, save. -/
def updateSingleFound (s : Store) (u : User) (body : PayloadEntry)
    (post : PassportPost) (i : Nat) (orig : Passport) : HRes Passport × Store :=
  if post.createdBy ≠ u.id ∧ u.role ≠ "admin" then
    (.err 403 "Not authorized to update this passport", s)
  else
    (.ok (mkUpdatedPassport orig body),
      savePost s
        { post with
          passports := post.passports.set i (mkUpdatedPassport orig body),
          updatedBy := some u.id })

/-- `updateSinglePassport`: locate the entry across all posts (404 if absent),
else `updateSingleFound`. -/
def updateSinglePassport (s : Store) (u : User) (eid : Nat) (body : PayloadEntry) :
    HRes Passport × Store :=
  match locatePassport s eid with
  | none => (.err 404 "Passport not found", s)
  | some (post, i, orig) => updateSingleFound s u body post i orig

/-- `deletePassportPost`: 404 if the post id is unknown; otherwise deletes the
document.  The owner-or-admin check present in the other handlers is commented
out in the source, so no 403 is ever produced. -/
def deletePassportPost (s : Store) (_u : User) (pid : Nat) : HRes String × Store :=
  match findPost s pid with
  | none => (.err 404 "Post not found", s)
  | some post =>
    (.ok "Passport post deleted successfully", s.eraseP fun q => q.id == post.id)

/-- The deletion logic shared verbatim by `deleteSinglePassport` and the loop
body of `deleteMultiplePassports`: if the post holding the located entry has
exactly one entry, delete the whole post; otherwise splice the entry out at
its index, set `updatedBy` and save the post. -/
def applyDelete (u : User) (s : Store) (post : PassportPost) (i : Nat) : Store :=
  if post.passports.length = 1 then
    s.eraseP fun q => q.id == post.id
  else
    savePost s { post with passports := post.passports.eraseIdx i, updatedBy := some u.id }

/-- `deleteSinglePassport`: locate the entry across all posts (404 if absent).
The owner-or-admin check is commented out in the source.  If the containing
post has exactly one entry the whole post is deleted; otherwise the entry is
spliced out of the array, `updatedBy` is set and the post saved.  Returns the
deleted entry's id and the containing post's id. -/
def deleteSinglePassport (s : Store) (u : User) (eid : Nat) : HRes (Nat × Nat) × Store :=
  match locatePassport s eid with
  | none => (.err 404 "Passport not found", s)
  | some (post, i, _) =>
    (.ok (eid, post.id), applyDelete u s post i)

/-- A per-identifier error record of the batch response
(`{ id: passportId, message }`). -/
structure BatchErr where
  id : Nat
  message : String
deriving DecidableEq, Repr

/-- The JSON body of `deleteMultiplePassports`' 200 response.  `errors` is an
`Option` because the source writes `errors: errors.length > 0 ? errors :
undefined`: the key is absent (`none`) when no error occurred. -/
structure BatchResponse where
  success : Bool
  count : Nat
  deleted : List Nat
  errors : Option (List BatchErr)
deriving DecidableEq, Repr

/-- One iteration of `deleteMultiplePassports`' loop over `passportIds`:
re-fetch the store, locate the identifier (recording a `Passport not found`
error on a miss), log-and-record the found entry, then delete the whole post
if it held a single entry, else splice the entry out and save. -/
def batchStep (u : User) (st : Store × List Passport × List BatchErr) (eid : Nat) :
    Store × List Passport × List BatchErr :=
  match locatePassport st.1 eid with
  | none => (st.1, st.2.1, st.2.2 ++ [{ id := eid, message := "Passport not found" }])
  | some (post, i, q) =>
    (applyDelete u st.1 post i, st.2.1 ++ [q], st.2.2)

/-- `deleteMultiplePassports`: 400 unless a non-empty id array is supplied;
otherwise processes each id independently with `batchStep` and reports the
count and ids of deleted entries plus the per-id errors (the `errors` key
being absent when the error list is empty). -/
def deleteMultiplePassports (s : Store) (u : User) (ids : List Nat) :
    HRes BatchResponse × Store :=
  if ids.isEmpty then
    (.err 400 "Please provide an array of passport IDs to delete", s)
  else
    let r := ids.foldl (batchStep u) (s, [], [])
    (.ok { success := true, count := r.2.1.length,
           deleted := r.2.1.map Passport.id,
           errors := if r.2.2.isEmpty then none else some r.2.2 }, r.1)

/-- The body of `getSinglePassport` once the entry was located: 403 unless
the caller owns the containing post or is an admin; otherwise return the
entry together with the owner and the containing post's id. -/
def getSingleFound (u : User) (post : PassportPost) (q : Passport) :
    HRes (Passport × Nat × Nat) :=
  if post.createdBy ≠ u.id ∧ u.role ≠ "admin" then
    .err 403 "Not authorized to access this passport"
  else
    .ok (q, post.createdBy, post.id)

/-- `getSinglePassport`: locate the entry across all posts (404 if absent),
else `getSingleFound`.  Read-only. -/
def getSinglePassport (s : Store) (u : User) (eid : Nat) : HRes (Passport × Nat × Nat) :=
  match locatePassport s eid with
  | none => .err 404 "Passport not found"
  | some (post, _, q) => getSingleFound u post q

/-- All entry identifiers appearing anywhere in the store. -/
def entryIds (s : Store) : List Nat :=
  (s.map fun p => p.passports.map Passport.id).flatten

/-- Well-formedness of a store as the server constructs it: post identifiers
are pairwise distinct, and entry identifiers are pairwise distinct across the
whole store ("identifiers are unique by construction"). -/
def WFStore (s : Store) : Prop :=
  (s.map PassportPost.id).Nodup ∧ (entryIds s).Nodup

/-- Some post of the store has an entry with the given identifier. -/
def containsE (s : Store) (eid : Nat) : Prop :=
  ∃ p ∈ s, ∃ q ∈ p.passports, q.id = eid

instance containsE_dec (s : Store) (eid : Nat) : Decidable (containsE s eid) :=
  inferInstanceAs (Decidable (∃ p ∈ s, ∃ q ∈ p.passports, q.id = eid))

/-! ### Concrete fixtures for witnesses and counterexamples -/

/-- Sample field values of a first passport entry. -/
def fieldsA : EntryFields :=
  { passportNumber := some "P1234567", link := some "https://x.test",
    issuedCountry := some "India", city := none, slipNo := none,
    otherDetails := none }

/-- Sample field values of a second passport entry. -/
def fieldsB : EntryFields :=
  { passportNumber := some "Q7654321", link := some "https://y.test",
    issuedCountry := some "Nepal", city := some "Pokhara", slipNo := none,
    otherDetails := none }

/-- A stored entry with identifier 10 and postDate 5. -/
def entryA : Passport := { id := 10, postDate := 5, fields := fieldsA }

/-- A stored entry with identifier 11 and postDate 6. -/
def entryB : Passport := { id := 11, postDate := 6, fields := fieldsB }

/-- A post owned by user 1 holding the two entries `entryA`, `entryB`. -/
def postAB : PassportPost :=
  { id := 1, createdBy := 1, updatedBy := none, passports := [entryA, entryB] }

/-- A post owned by user 1 holding only `entryA`. -/
def postSolo : PassportPost :=
  { id := 2, createdBy := 1, updatedBy := none, passports := [entryA] }

/-- The owner of the sample posts. -/
def ownerU : User := { id := 1, role := "user" }

/-- An authenticated caller who is neither the owner nor an admin. -/
def strangerU : User := { id := 2, role := "user" }

/-! ### Basic lemmas about `findEntry` -/

theorem findEntry_some {l : List Passport} {eid i : Nat} {q : Passport}
    (h : findEntry l eid = some (i, q)) :
    l[i]? = some q ∧ q.id = eid := by
  induction l generalizing i with
  | nil => simp [findEntry] at h
  | cons x xs ih =>
    by_cases hx : x.id = eid
    · rw [findEntry, if_pos hx] at h
      have h' := Option.some.inj h
      have h1 : 0 = i := congrArg Prod.fst h'
      have h2 : x = q := congrArg Prod.snd h'
      subst h1; subst h2
      exact ⟨by simp, hx⟩
    · rw [findEntry, if_neg hx] at h
      cases hfe : findEntry xs eid with
      | none => rw [hfe] at h; simp at h
      | some r =>
        rw [hfe] at h
        have h' : r.1 + 1 = i ∧ r.2 = q := by simpa using h
        obtain ⟨h1, h2⟩ := h'
        subst h1; subst h2
        have hih := ih (show findEntry xs eid = some (r.1, r.2) by rw [hfe])
        simpa using hih

theorem lt_length_of_findEntry {l : List Passport} {eid i : Nat} {q : Passport}
    (h : findEntry l eid = some (i, q)) : i < l.length := by
  have := (findEntry_some h).1
  exact (List.getElem?_eq_some.mp this).1

theorem findEntry_none {l : List Passport} {eid : Nat}
    (h : findEntry l eid = none) : ∀ q ∈ l, q.id ≠ eid := by
  induction l with
  | nil => simp
  | cons x xs ih =>
    by_cases hx : x.id = eid
    · rw [findEntry, if_pos hx] at h
      simp at h
    · rw [findEntry, if_neg hx] at h
      have h' : findEntry xs eid = none := by
        cases hfe : findEntry xs eid with
        | none => rfl
        | some r => rw [hfe] at h; simp at h
      intro q hq
      rcases List.mem_cons.mp hq with hq | hq
      · subst hq; exact hx
      · exact ih h' q hq

theorem findEntry_isSome {l : List Passport} {eid : Nat} {q : Passport}
    (hq : q ∈ l) (heq : q.id = eid) : (findEntry l eid).isSome := by
  induction l with
  | nil => simp at hq
  | cons x xs ih =>
    by_cases hx : x.id = eid
    · simp [findEntry, hx]
    · have hqx : q ≠ x := by
        intro h; rw [h] at heq; exact hx heq
      have hq' : q ∈ xs := by
        rcases List.mem_cons.mp hq with h | h
        · exact absurd h hqx
        · exact h
      have hih := ih hq'
      rw [findEntry, if_neg hx]
      cases hfe : findEntry xs eid with
      | none => rw [hfe] at hih; simp at hih
      | some r => simp

theorem find?_id_self {l : List Passport} {q : Passport}
    (nd : (l.map Passport.id).Nodup) (hq : q ∈ l) :
    l.find? (fun r => r.id == q.id) = some q := by
  induction l with
  | nil => simp at hq
  | cons x xs ih =>
    rcases List.mem_cons.mp hq with h | h
    · subst h
      simp [List.find?]
    · by_cases hx : x.id = q.id
      · exfalso
        have : q.id ∈ xs.map Passport.id := List.mem_map_of_mem Passport.id h
        have hnx : x.id ∉ xs.map Passport.id := (List.nodup_cons.mp nd).1
        rw [hx] at hnx
        exact hnx this
      · have : (x.id == q.id) = false := by
          simp [hx]
        rw [List.find?_cons_of_neg _ (by simp [hx])]
        exact ih (List.nodup_cons.mp nd).2 h

/-! ### Basic lemmas about `locatePassport`, `entryIds`, `WFStore` -/

theorem locate_some {s : Store} {eid i : Nat} {p : PassportPost} {q : Passport}
    (h : locatePassport s eid = some (p, i, q)) :
    p ∈ s ∧ findEntry p.passports eid = some (i, q) := by
  induction s with
  | nil => simp [locatePassport] at h
  | cons x xs ih =>
    cases hx : findEntry x.passports eid with
    | some r =>
      rw [locatePassport, hx] at h
      have h' := Option.some.inj h
      have h1 : x = p := congrArg Prod.fst h'
      have h2 : r.1 = i := congrArg (fun t => t.snd.fst) h'
      have h3 : r.2 = q := congrArg (fun t => t.snd.snd) h'
      subst h1
      refine ⟨List.mem_cons_self _ _, ?_⟩
      rw [hx, ← h2, ← h3]
    | none =>
      rw [locatePassport, hx] at h
      obtain ⟨h1, h2⟩ := ih h
      exact ⟨List.mem_cons_of_mem _ h1, h2⟩

theorem locate_isSome {s : Store} {eid : Nat} :
    (locatePassport s eid).isSome ↔ containsE s eid := by
  induction s with
  | nil => simp [locatePassport, containsE]
  | cons x xs ih =>
    constructor
    · intro h
      cases hx : findEntry x.passports eid with
      | some r =>
        obtain ⟨hq, hid⟩ := findEntry_some (l := x.passports) (by rw [hx])
        exact ⟨x, List.mem_cons_self _ _, r.2, List.getElem?_mem hq, hid⟩
      | none =>
        simp only [locatePassport, hx] at h
        obtain ⟨p, hp, hq⟩ := ih.mp h
        exact ⟨p, List.mem_cons_of_mem _ hp, hq⟩
    · rintro ⟨p, hp, q, hq, hid⟩
      rcases List.mem_cons.mp hp with h | h
      · subst h
        have := findEntry_isSome hq hid
        cases hx : findEntry p.passports eid with
        | some r => simp [locatePassport, hx]
        | none => rw [hx] at this; simp at this
      · cases hx : findEntry x.passports eid with
        | some r => simp [locatePassport, hx]
        | none =>
          simp only [locatePassport, hx]
          exact ih.mpr ⟨p, h, q, hq, hid⟩

theorem entryIds_cons {h : PassportPost} {t : Store} :
    entryIds (h :: t) = h.passports.map Passport.id ++ entryIds t := by
  simp [entryIds]

theorem WFStore_tail {h : PassportPost} {t : Store} (wf : WFStore (h :: t)) :
    WFStore t := by
  obtain ⟨nd1, nd2⟩ := wf
  refine ⟨(List.nodup_cons.mp (by simpa using nd1)).2, ?_⟩
  rw [entryIds_cons] at nd2
  exact (List.nodup_append.mp nd2).2.1

theorem mem_entryIds {s : Store} {p : PassportPost} {q : Passport}
    (hp : p ∈ s) (hq : q ∈ p.passports) : q.id ∈ entryIds s := by
  induction s with
  | nil => simp at hp
  | cons x xs ih =>
    rw [entryIds_cons]
    rcases List.mem_cons.mp hp with h | h
    · subst h
      exact List.mem_append_left _ (List.mem_map_of_mem Passport.id hq)
    · exact List.mem_append_right _ (ih h)

theorem WFStore_post_nodup {s : Store} {p : PassportPost}
    (wf : WFStore s) (hp : p ∈ s) : (p.passports.map Passport.id).Nodup := by
  induction s with
  | nil => simp at hp
  | cons x xs ih =>
    rcases List.mem_cons.mp hp with h | h
    · subst h
      have := wf.2
      rw [entryIds_cons] at this
      exact (List.nodup_append.mp this).1
    · exact ih (WFStore_tail wf) h

theorem locate_of_findEntry {s : Store} {eid i : Nat} {p : PassportPost} {q : Passport}
    (wf : WFStore s) (hp : p ∈ s)
    (hf : findEntry p.passports eid = some (i, q)) :
    locatePassport s eid = some (p, i, q) := by
  induction s with
  | nil => simp at hp
  | cons x xs ih =>
    rcases List.mem_cons.mp hp with h | h
    · subst h
      simp [locatePassport, hf]
    · cases hx : findEntry x.passports eid with
      | some r =>
        exfalso
        obtain ⟨hr, hrid⟩ := findEntry_some (l := x.passports) (by rw [hx])
        obtain ⟨hq, hqid⟩ := findEntry_some hf
        have h1 : eid ∈ x.passports.map Passport.id := by
          rw [← hrid]
          exact List.mem_map_of_mem Passport.id (List.getElem?_mem hr)
        have h2 : eid ∈ entryIds xs := by
          rw [← hqid]
          exact mem_entryIds h (List.getElem?_mem hq)
        have := wf.2
        rw [entryIds_cons] at this
        exact (List.nodup_append.mp this).2.2 h1 h2
      | none =>
        simp only [locatePassport, hx]
        exact ih (WFStore_tail wf) h

/-! ### Lemmas about `findPost`, `savePost`, `List.eraseP`, `List.eraseIdx` -/

theorem findPost_some {s : Store} {pid : Nat} {p : PassportPost}
    (h : findPost s pid = some p) : p ∈ s ∧ p.id = pid := by
  refine ⟨List.mem_of_find?_eq_some h, ?_⟩
  have := List.find?_some h
  simpa using this

theorem findPost_eq_none {s : Store} {pid : Nat}
    (h : ∀ r ∈ s, r.id ≠ pid) : findPost s pid = none := by
  apply List.find?_eq_none.mpr
  intro r hr
  simp [h r hr]

theorem savePost_map_id (s : Store) (p' : PassportPost) :
    (savePost s p').map PassportPost.id = s.map PassportPost.id := by
  unfold savePost
  rw [List.map_map]
  apply List.map_congr_left
  intro q _
  by_cases hq : q.id = p'.id
  · simp [hq]
  · simp [hq]

theorem findPost_savePost {s : Store} {p' : PassportPost}
    (hex : ∃ r ∈ s, r.id = p'.id) :
    findPost (savePost s p') p'.id = some p' := by
  induction s with
  | nil => simp at hex
  | cons x xs ih =>
    by_cases hx : x.id = p'.id
    · simp [savePost, findPost, hx, List.find?]
    · have hx' : (if x.id == p'.id then p' else x) = x := by simp [hx]
      obtain ⟨r, hr, hrid⟩ := hex
      have hr' : r ∈ xs := by
        rcases List.mem_cons.mp hr with h | h
        · subst h; exact absurd hrid hx
        · exact h
      have := ih ⟨r, hr', hrid⟩
      simp only [savePost, List.map_cons, hx', findPost] at *
      rw [List.find?_cons_of_neg _ (by simp [hx])]
      exact this

theorem mem_savePost_cases {s : Store} {p' r : PassportPost}
    (h : r ∈ savePost s p') : r = p' ∨ (r ∈ s ∧ r.id ≠ p'.id) := by
  unfold savePost at h
  obtain ⟨q, hq, hqr⟩ := List.mem_map.mp h
  by_cases hid : q.id = p'.id
  · left
    rw [← hqr]; simp [hid]
  · right
    have : r = q := by rw [← hqr]; simp [hid]
    subst this
    exact ⟨hq, hid⟩

theorem mem_savePost_of_ne {s : Store} {p' r : PassportPost}
    (hr : r ∈ s) (hne : r.id ≠ p'.id) : r ∈ savePost s p' := by
  unfold savePost
  apply List.mem_map.mpr
  exact ⟨r, hr, by simp [hne]⟩

theorem self_mem_savePost {s : Store} {p p' : PassportPost}
    (hp : p ∈ s) (hid : p.id = p'.id) : p' ∈ savePost s p' := by
  unfold savePost
  apply List.mem_map.mpr
  exact ⟨p, hp, by simp [hid]⟩

theorem mem_eraseP_of_id_ne {s : Store} {pid : Nat} {r : PassportPost}
    (hr : r ∈ s) (hne : r.id ≠ pid) :
    r ∈ s.eraseP (fun q => q.id == pid) := by
  have hne' : ¬ ((fun q => q.id == pid) r = true) := by simp [hne]
  exact (List.mem_eraseP_of_neg (p := fun q => q.id == pid) (a := r) hne').mpr hr

theorem id_ne_of_mem_eraseP {s : Store} {p r : PassportPost}
    (nd : (s.map PassportPost.id).Nodup) (hp : p ∈ s)
    (hr : r ∈ s.eraseP (fun q => q.id == p.id)) : r.id ≠ p.id := by
  induction s with
  | nil => simp at hp
  | cons x xs ih =>
    have ndc : (∀ y ∈ xs, ¬ y.id = x.id) ∧ (xs.map PassportPost.id).Nodup := by
      simpa using nd
    by_cases hx : x.id = p.id
    · rw [List.eraseP_cons_of_pos (by simp [hx])] at hr
      intro hrp
      exact ndc.1 r hr (by rw [hrp, ← hx])
    · rw [List.eraseP_cons_of_neg (by simp [hx])] at hr
      have hp' : p ∈ xs := by
        rcases List.mem_cons.mp hp with h | h
        · subst h; exact absurd rfl hx
        · exact h
      rcases List.mem_cons.mp hr with h | h
      · subst h; exact hx
      · exact ih ndc.2 hp' h

theorem mem_eraseIdx_of_ne {l : List Passport} {i : Nat} {a b : Passport}
    (ha : l[i]? = some a) (hb : b ∈ l) (hne : b ≠ a) : b ∈ l.eraseIdx i := by
  induction l generalizing i with
  | nil => simp at hb
  | cons x xs ih =>
    cases i with
    | zero =>
      have hxa : x = a := by simpa using ha
      subst hxa
      rw [List.eraseIdx_cons_zero]
      rcases List.mem_cons.mp hb with h | h
      · exact absurd h hne
      · exact h
    | succ j =>
      rw [List.eraseIdx_cons_succ]
      rcases List.mem_cons.mp hb with h | h
      · subst h; exact List.mem_cons_self _ _
      · exact List.mem_cons_of_mem _ (ih (by simpa using ha) h)

/-! ### Positional behaviour of `castEntries` -/

theorem castEntriesAux_getElem? (f : Nat → Nat) (xs : List ProcessedEntry) (n k : Nat) :
    (castEntriesAux f n xs)[k]? =
      (xs[k]?).map fun e =>
        { id := e.procId.getD (f (n + k)), postDate := e.procPostDate,
          fields := trimFields e.procFields } := by
  induction xs generalizing n k with
  | nil => simp [castEntriesAux]
  | cons e rest ih =>
    cases k with
    | zero => simp [castEntriesAux]
    | succ j =>
      simp only [castEntriesAux, List.getElem?_cons_succ]
      have hnk : n + 1 + j = n + (j + 1) := by omega
      rw [ih]
      simp only [hnk]

theorem castEntries_getElem? (f : Nat → Nat) (xs : List ProcessedEntry) (k : Nat) :
    (castEntries f xs)[k]? =
      (xs[k]?).map fun e =>
        { id := e.procId.getD (f k), postDate := e.procPostDate,
          fields := trimFields e.procFields } := by
  have := castEntriesAux_getElem? f xs 0 k
  simpa [castEntries] using this

/-! ### Lemmas about `batchStep` and its fold -/

theorem batchStep_fail (u : User) (st : Store × List Passport × List BatchErr)
    (eid : Nat) (h : locatePassport st.1 eid = none) :
    batchStep u st eid =
      (st.1, st.2.1, st.2.2 ++ [{ id := eid, message := "Passport not found" }]) := by
  unfold batchStep
  rw [h]

theorem batchStep_found_eq (u : User) (st : Store × List Passport × List BatchErr)
    (eid : Nat) (post : PassportPost) (i : Nat) (q : Passport)
    (h : locatePassport st.1 eid = some (post, i, q)) :
    batchStep u st eid = (applyDelete u st.1 post i, st.2.1 ++ [q], st.2.2) := by
  unfold batchStep
  rw [h]

theorem mem_entry_applyDelete (u : User) (s : Store) (post : PassportPost) (i : Nat)
    (hpost : post ∈ s) (p' : PassportPost) (q' : Passport)
    (hp : p' ∈ applyDelete u s post i) (hq : q' ∈ p'.passports) :
    ∃ p ∈ s, q' ∈ p.passports := by
  unfold applyDelete at hp
  by_cases hl : post.passports.length = 1
  · rw [if_pos hl] at hp
    exact ⟨p', List.Sublist.mem hp (List.eraseP_sublist _), hq⟩
  · rw [if_neg hl] at hp
    rcases mem_savePost_cases hp with h | h
    · subst h
      exact ⟨post, hpost, List.Sublist.mem hq (List.eraseIdx_sublist _ _)⟩
    · exact ⟨p', h.1, hq⟩

theorem applyDelete_nodup (u : User) (s : Store) (post : PassportPost) (i : Nat)
    (nd : (s.map PassportPost.id).Nodup) :
    ((applyDelete u s post i).map PassportPost.id).Nodup := by
  unfold applyDelete
  by_cases hl : post.passports.length = 1
  · rw [if_pos hl]
    exact nd.sublist ((List.eraseP_sublist _).map PassportPost.id)
  · rw [if_neg hl]
    rw [savePost_map_id]
    exact nd

theorem applyDelete_contains (u : User) (s : Store) (post : PassportPost)
    (i : Nat) (q : Passport) (eid B : Nat)
    (nd : (s.map PassportPost.id).Nodup) (hpost : post ∈ s)
    (hfe : findEntry post.passports eid = some (i, q))
    (hne : B ≠ eid) (hc : containsE s B) :
    containsE (applyDelete u s post i) B := by
  obtain ⟨pB, hpB, qB, hqB, hqBid⟩ := hc
  obtain ⟨hq_get, hq_id⟩ := findEntry_some hfe
  unfold applyDelete
  by_cases hl : post.passports.length = 1
  · rw [if_pos hl]
    have hpBne : pB ≠ post := by
      intro hEq
      subst hEq
      obtain ⟨a, ha⟩ := List.length_eq_one.mp hl
      rw [ha] at hq_get hqB
      have hia : q = a := by
        have hlt : i < 1 := by
          have := lt_length_of_findEntry hfe
          rw [ha] at this
          simpa using this
        interval_cases i
        · simpa using hq_get.symm
      have hqBa : qB = a := by simpa using hqB
      apply hne
      rw [← hqBid, hqBa, ← hia, hq_id]
    have hidne : pB.id ≠ post.id := by
      intro hEq
      exact hpBne (List.inj_on_of_nodup_map nd hpB hpost hEq)
    exact ⟨pB, mem_eraseP_of_id_ne hpB hidne, qB, hqB, hqBid⟩
  · rw [if_neg hl]
    by_cases hpBeq : pB = post
    · subst hpBeq
      refine ⟨{ pB with passports := pB.passports.eraseIdx i, updatedBy := some u.id },
        self_mem_savePost hpB rfl, qB, ?_, hqBid⟩
      have hqBq : qB ≠ q := by
        intro hEq
        apply hne
        rw [← hqBid, hEq, hq_id]
      exact mem_eraseIdx_of_ne hq_get hqB hqBq
    · have hidne : pB.id ≠ post.id := by
        intro hEq
        exact hpBeq (List.inj_on_of_nodup_map nd hpB hpost hEq)
      exact ⟨pB, mem_savePost_of_ne hpB hidne, qB, hqB, hqBid⟩

theorem applyDelete_nonempty (u : User) (s : Store) (post : PassportPost)
    (i : Nat) (q : Passport) (eid : Nat)
    (hfe : findEntry post.passports eid = some (i, q))
    (h : ∀ r ∈ s, r.passports ≠ []) :
    ∀ r ∈ applyDelete u s post i, r.passports ≠ [] := by
  intro r hr
  have hlt : i < post.passports.length := lt_length_of_findEntry hfe
  unfold applyDelete at hr
  by_cases hl : post.passports.length = 1
  · rw [if_pos hl] at hr
    exact h r (List.Sublist.mem hr (List.eraseP_sublist _))
  · rw [if_neg hl] at hr
    rcases mem_savePost_cases hr with heq | hmem
    · subst heq
      have hlen : (post.passports.eraseIdx i).length = post.passports.length - 1 :=
        List.length_eraseIdx_of_lt hlt
      have hpos : 0 < (post.passports.eraseIdx i).length := by omega
      exact List.ne_nil_of_length_pos hpos
    · exact h r hmem.1

theorem batchStep_not_contains (u : User) (st : Store × List Passport × List BatchErr)
    (eid X : Nat) (h : ¬ containsE st.1 X) :
    ¬ containsE (batchStep u st eid).1 X := by
  intro hc
  obtain ⟨p', hp', q', hq', hid⟩ := hc
  cases hloc : locatePassport st.1 eid with
  | none =>
    rw [batchStep_fail u st eid hloc] at hp'
    exact h ⟨p', hp', q', hq', hid⟩
  | some r =>
    obtain ⟨post, i, q⟩ := r
    rw [batchStep_found_eq u st eid post i q hloc] at hp'
    obtain ⟨p, hp, hq⟩ :=
      mem_entry_applyDelete u st.1 post i (locate_some hloc).1 p' q' hp' hq'
    exact h ⟨p, hp, q', hq, hid⟩

theorem batchStep_nodup (u : User) (st : Store × List Passport × List BatchErr)
    (eid : Nat) (nd : (st.1.map PassportPost.id).Nodup) :
    ((batchStep u st eid).1.map PassportPost.id).Nodup := by
  cases hloc : locatePassport st.1 eid with
  | none => rw [batchStep_fail u st eid hloc]; exact nd
  | some r =>
    obtain ⟨post, i, q⟩ := r
    rw [batchStep_found_eq u st eid post i q hloc]
    exact applyDelete_nodup u st.1 post i nd

theorem batchStep_contains (u : User) (st : Store × List Passport × List BatchErr)
    (eid B : Nat) (nd : (st.1.map PassportPost.id).Nodup)
    (hne : B ≠ eid) (hc : containsE st.1 B) :
    containsE (batchStep u st eid).1 B := by
  cases hloc : locatePassport st.1 eid with
  | none => rw [batchStep_fail u st eid hloc]; exact hc
  | some r =>
    obtain ⟨post, i, q⟩ := r
    rw [batchStep_found_eq u st eid post i q hloc]
    obtain ⟨hpost, hfe⟩ := locate_some hloc
    exact applyDelete_contains u st.1 post i q eid B nd hpost hfe hne hc

theorem batchStep_nonempty (u : User) (st : Store × List Passport × List BatchErr)
    (eid : Nat) (h : ∀ r ∈ st.1, r.passports ≠ []) :
    ∀ r ∈ (batchStep u st eid).1, r.passports ≠ [] := by
  cases hloc : locatePassport st.1 eid with
  | none => rw [batchStep_fail u st eid hloc]; exact h
  | some r =>
    obtain ⟨post, i, q⟩ := r
    rw [batchStep_found_eq u st eid post i q hloc]
    exact applyDelete_nonempty u st.1 post i q eid (locate_some hloc).2 h

theorem batchStep_count (u : User) (st : Store × List Passport × List BatchErr)
    (eid : Nat) :
    (batchStep u st eid).2.1.length + (batchStep u st eid).2.2.length
      = st.2.1.length + st.2.2.length + 1 := by
  cases hloc : locatePassport st.1 eid with
  | none =>
    rw [batchStep_fail u st eid hloc]
    simp only [List.length_append, List.length_cons, List.length_nil]
    omega
  | some r =>
    obtain ⟨post, i, q⟩ := r
    rw [batchStep_found_eq u st eid post i q hloc]
    simp only [List.length_append, List.length_cons, List.length_nil]
    omega

theorem fold_count (u : User) (ids : List Nat)
    (st : Store × List Passport × List BatchErr) :
    (ids.foldl (batchStep u) st).2.1.length + (ids.foldl (batchStep u) st).2.2.length
      = st.2.1.length + st.2.2.length + ids.length := by
  induction ids generalizing st with
  | nil => simp
  | cons a as ih =>
    simp only [List.foldl_cons, List.length_cons]
    rw [ih (batchStep u st a)]
    have := batchStep_count u st a
    omega

theorem fold_nonempty (u : User) (ids : List Nat)
    (st : Store × List Passport × List BatchErr)
    (h : ∀ r ∈ st.1, r.passports ≠ []) :
    ∀ r ∈ (ids.foldl (batchStep u) st).1, r.passports ≠ [] := by
  induction ids generalizing st with
  | nil => simpa using h
  | cons a as ih =>
    simp only [List.foldl_cons]
    exact ih (batchStep u st a) (batchStep_nonempty u st a h)

/-! ### Equation lemmas for the handlers -/

theorem updatePost_found_eq (s : Store) (u : User) (pid : Nat)
    (body : List PayloadEntry) (nowMs : Nat) (fI : Nat → Nat) (orig : PassportPost)
    (h : findPost s pid = some orig) :
    updatePassportPost s u pid body nowMs fI = updatePostFound s u orig body nowMs fI := by
  unfold updatePassportPost
  rw [h]

theorem updateSingle_found_eq (s : Store) (u : User) (eid : Nat) (body : PayloadEntry)
    (post : PassportPost) (i : Nat) (orig : Passport)
    (h : locatePassport s eid = some (post, i, orig)) :
    updateSinglePassport s u eid body = updateSingleFound s u body post i orig := by
  unfold updateSinglePassport
  rw [h]

theorem getSingle_found_eq (s : Store) (u : User) (eid : Nat)
    (post : PassportPost) (i : Nat) (q : Passport)
    (h : locatePassport s eid = some (post, i, q)) :
    getSinglePassport s u eid = getSingleFound u post q := by
  unfold getSinglePassport
  rw [h]

theorem deleteSingle_found_eq (s : Store) (u : User) (eid : Nat)
    (post : PassportPost) (i : Nat) (q : Passport)
    (h : locatePassport s eid = some (post, i, q)) :
    deleteSinglePassport s u eid = (.ok (eid, post.id), applyDelete u s post i) := by
  unfold deleteSinglePassport
  rw [h]

theorem deleteSingle_fail_eq (s : Store) (u : User) (eid : Nat)
    (h : locatePassport s eid = none) :
    deleteSinglePassport s u eid = (.err 404 "Passport not found", s) := by
  unfold deleteSinglePassport
  rw [h]

theorem deletePost_found_eq (s : Store) (u : User) (pid : Nat) (post : PassportPost)
    (h : findPost s pid = some post) :
    deletePassportPost s u pid =
      (.ok "Passport post deleted successfully", s.eraseP fun q => q.id == post.id) := by
  unfold deletePassportPost
  rw [h]

theorem createPassport_ok_eq (s : Store) (u : User) (body : List PayloadEntry)
    (nowMs freshPostId : Nat) (freshIds : Nat → Nat) (h : ¬ body.isEmpty)
    (hval : validEntries (createdPost u body nowMs freshPostId freshIds).passports) :
    createPassportPost s u body nowMs freshPostId freshIds =
      (.ok (createdPost u body nowMs freshPostId freshIds),
        s ++ [createdPost u body nowMs freshPostId freshIds]) := by
  unfold createPassportPost
  rw [if_neg h, if_pos hval]

theorem deleteMulti_eq (s : Store) (u : User) (ids : List Nat) (h : ids ≠ []) :
    deleteMultiplePassports s u ids =
      (.ok { success := true,
             count := (ids.foldl (batchStep u) (s, [], [])).2.1.length,
             deleted := (ids.foldl (batchStep u) (s, [], [])).2.1.map Passport.id,
             errors := if (ids.foldl (batchStep u) (s, [], [])).2.2.isEmpty then none
                       else some (ids.foldl (batchStep u) (s, [], [])).2.2 },
        (ids.foldl (batchStep u) (s, [], [])).1) := by
  unfold deleteMultiplePassports
  rw [if_neg (by simpa using h)]

theorem deleteMulti_empty_eq (s : Store) (u : User) (ids : List Nat) (h : ids = []) :
    deleteMultiplePassports s u ids =
      (.err 400 "Please provide an array of passport IDs to delete", s) := by
  unfold deleteMultiplePassports
  rw [if_pos (by simpa using h)]

theorem locate_eq_none_of_not_contains (s : Store) (eid : Nat)
    (h : ¬ containsE s eid) : locatePassport s eid = none := by
  cases hx : locatePassport s eid with
  | none => rfl
  | some t => exact absurd (locate_isSome.mp (by simp [hx])) h

theorem not_contains_applyDelete (u : User) (s : Store) (post : PassportPost)
    (i : Nat) (X : Nat) (hpost : post ∈ s) (h : ¬ containsE s X) :
    ¬ containsE (applyDelete u s post i) X := by
  rintro ⟨p2, hp2, q2, hq2, hid⟩
  obtain ⟨p, hp, hq⟩ := mem_entry_applyDelete u s post i hpost p2 q2 hp2 hq2
  exact h ⟨p, hp, q2, hq, hid⟩

/-! ### Claim theorems -/

/-- C10: the entry-level read rejects with 403 Forbidden whenever the
authenticated caller is neither the containing post's owner nor an admin, and
returns no entry content in that case (the result is a bare error, carrying no
passport data). -/
theorem getSinglePassport_forbidden (s : Store) (u : User) (eid : Nat)
    (post : PassportPost) (i : Nat) (q : Passport)
    (hloc : locatePassport s eid = some (post, i, q))
    (hown : post.createdBy ≠ u.id) (hrole : u.role ≠ "admin") :
    getSinglePassport s u eid = .err 403 "Not authorized to access this passport" := by
  rw [getSingle_found_eq s u eid post i q hloc]
  unfold getSingleFound
  rw [if_pos ⟨hown, hrole⟩]

/-- Witness for C10 at a concrete store: a non-owner non-admin caller asking
for entry 10 of a post owned by user 1 gets the 403 error. -/
theorem getSinglePassport_forbidden_witness :
    getSinglePassport [postAB] strangerU 10 =
      .err 403 "Not authorized to access this passport" :=
  getSinglePassport_forbidden [postAB] strangerU 10 postAB 0 entryA (by rfl)
    (by decide) (by decide)

/-- C4 counterexample: the caller `strangerU` (id 2, role "user") is neither
the owner of `postSolo` (owned by user 1) nor an admin, yet the single-entry
delete succeeds with 200 and removes the post from the store — the
ownership check of the deletion handlers is commented out in the source, so
the claim that every write operation rejects with Forbidden is false. -/
theorem write_forbidden_counterexample :
    strangerU.id ≠ postSolo.createdBy ∧ strangerU.role ≠ "admin" ∧
    (deleteSinglePassport [postSolo] strangerU 10).1 = HRes.ok (10, 2) ∧
    (deleteSinglePassport [postSolo] strangerU 10).2 = [] ∧
    (deletePassportPost [postSolo] strangerU 2).1 =
      HRes.ok "Passport post deleted successfully" ∧
    (deletePassportPost [postSolo] strangerU 2).2 = [] := by
  exact ⟨by decide, by decide, by rfl, by rfl, by rfl, by rfl⟩

/-- C4 amended: only the two update operations enforce the owner-or-admin
guard (rejecting with 403 and leaving the store unchanged); the deletion
operations (whole-post, single-entry, batch) perform no ownership check and
proceed for any authenticated caller. -/
theorem write_ops_ownership_guard (s : Store) (u : User) :
    (∀ (pid : Nat) (body : List PayloadEntry) (nowMs : Nat) (fI : Nat → Nat)
        (orig : PassportPost),
      findPost s pid = some orig →
      orig.createdBy ≠ u.id → u.role ≠ "admin" →
      updatePassportPost s u pid body nowMs fI =
        (.err 403 "Not authorized to update this post", s))
    ∧ (∀ (eid : Nat) (body : PayloadEntry) (post : PassportPost) (i : Nat)
        (orig : Passport),
      locatePassport s eid = some (post, i, orig) →
      post.createdBy ≠ u.id → u.role ≠ "admin" →
      updateSinglePassport s u eid body =
        (.err 403 "Not authorized to update this passport", s))
    ∧ (∀ (pid : Nat) (post : PassportPost),
      findPost s pid = some post →
      (deletePassportPost s u pid).1 = .ok "Passport post deleted successfully")
    ∧ (∀ (eid : Nat) (post : PassportPost) (i : Nat) (q : Passport),
      locatePassport s eid = some (post, i, q) →
      (deleteSinglePassport s u eid).1 = .ok (eid, post.id))
    ∧ (∀ ids : List Nat, ids ≠ [] →
      ∃ resp, (deleteMultiplePassports s u ids).1 = HRes.ok resp) := by
  refine ⟨?_, ?_, ?_, ?_, ?_⟩
  · intro pid body nowMs fI orig hfind hown hrole
    rw [updatePost_found_eq s u pid body nowMs fI orig hfind]
    unfold updatePostFound
    rw [if_pos ⟨hown, hrole⟩]
  · intro eid body post i orig hloc hown hrole
    rw [updateSingle_found_eq s u eid body post i orig hloc]
    unfold updateSingleFound
    rw [if_pos ⟨hown, hrole⟩]
  · intro pid post hfind
    rw [deletePost_found_eq s u pid post hfind]
  · intro eid post i q hloc
    rw [deleteSingle_found_eq s u eid post i q hloc]
  · intro ids hids
    rw [deleteMulti_eq s u ids hids]
    exact ⟨_, rfl⟩

/-- Witness for C4's amended statement: at a concrete store, the non-owner
non-admin caller's post-level update is rejected with 403 and the store is
unchanged, while the same caller's whole-post delete succeeds. -/
theorem write_ops_ownership_guard_witness :
    updatePassportPost [postAB] strangerU 1 [] 0 (fun j => j) =
      (.err 403 "Not authorized to update this post", [postAB]) ∧
    (deletePassportPost [postAB] strangerU 1).1 =
      HRes.ok "Passport post deleted successfully" := by
  constructor
  · exact (write_ops_ownership_guard [postAB] strangerU).1 1 [] 0 (fun j => j) postAB
      (by rfl) (by decide) (by decide)
  · exact (write_ops_ownership_guard [postAB] strangerU).2.2.1 1 postAB (by rfl)

/-- C7: code bug at the failing input — an entry-level update whose payload
carries an `_id` field.  The source builds
`{ _id: originalPassport._id, ...req.body, postDate: originalPassport.postDate }`,
so the body spread overrides the `_id` that the preceding line (and its
comment "Preserve the original ID") meant to preserve: updating entry 10 of
`postAB` with a payload carrying `_id` 99 stores an entry whose identifier is
99, not 10, while the postDate is still preserved. -/
theorem single_update_id_overridden :
    (updateSinglePassport [postAB] ownerU 10
        { suppliedId := some 99, suppliedPostDate := none, fields := fieldsB }).1 =
      HRes.ok { id := 99, postDate := entryA.postDate, fields := fieldsB } ∧
    (99 : Nat) ≠ entryA.id := by
  exact ⟨by rfl, by decide⟩

/-! ### Inversion helpers for successful updates -/

theorem updatePostFound_ok (s : Store) (u : User) (orig : PassportPost)
    (body : List PayloadEntry) (nowMs : Nat) (fI : Nat → Nat)
    (upd : PassportPost) (s2 : Store)
    (h : updatePostFound s u orig body nowMs fI = (.ok upd, s2)) :
    upd = updatedPost u orig body nowMs fI ∧
    s2 = savePost s (updatedPost u orig body nowMs fI) := by
  unfold updatePostFound at h
  by_cases hc1 : orig.createdBy ≠ u.id ∧ u.role ≠ "admin"
  · rw [if_pos hc1] at h
    exact absurd (congrArg Prod.fst h) (by simp)
  · rw [if_neg hc1] at h
    by_cases hc2 : body.isEmpty
    · rw [if_pos hc2] at h
      exact absurd (congrArg Prod.fst h) (by simp)
    · rw [if_neg hc2] at h
      by_cases hval : validEntries (updatedPost u orig body nowMs fI).passports
      · rw [if_pos hval] at h
        have h1 := congrArg Prod.fst h
        have h2 := congrArg Prod.snd h
        simp only [Prod.fst] at h1
        simp only [Prod.snd] at h2
        have h1' : updatedPost u orig body nowMs fI = upd := by simpa using h1
        exact ⟨h1'.symm, h2.symm⟩
      · rw [if_neg hval] at h
        exact absurd (congrArg Prod.fst h) (by simp)

theorem updateSingleFound_ok (s : Store) (u : User) (body : PayloadEntry)
    (post : PassportPost) (i : Nat) (orig : Passport) (upd : Passport) (s2 : Store)
    (h : updateSingleFound s u body post i orig = (.ok upd, s2)) :
    upd = mkUpdatedPassport orig body ∧
    s2 = savePost s
      { post with
        passports := post.passports.set i (mkUpdatedPassport orig body),
        updatedBy := some u.id } := by
  unfold updateSingleFound at h
  by_cases hc1 : post.createdBy ≠ u.id ∧ u.role ≠ "admin"
  · rw [if_pos hc1] at h
    exact absurd (congrArg Prod.fst h) (by simp)
  · rw [if_neg hc1] at h
    have h1 := congrArg Prod.fst h
    have h2 := congrArg Prod.snd h
    simp only [Prod.fst] at h1
    simp only [Prod.snd] at h2
    have h1' : mkUpdatedPassport orig body = upd := by simpa using h1
    exact ⟨h1'.symm, h2.symm⟩

theorem createPassport_ok (s : Store) (u : User) (body : List PayloadEntry)
    (nowMs freshPostId : Nat) (freshIds : Nat → Nat) (post : PassportPost) (s2 : Store)
    (h : createPassportPost s u body nowMs freshPostId freshIds = (.ok post, s2)) :
    post = createdPost u body nowMs freshPostId freshIds ∧
    s2 = s ++ [post] := by
  unfold createPassportPost at h
  by_cases hc : body.isEmpty
  · rw [if_pos hc] at h
    exact absurd (congrArg Prod.fst h) (by simp)
  · rw [if_neg hc] at h
    by_cases hval : validEntries (createdPost u body nowMs freshPostId freshIds).passports
    · rw [if_pos hval] at h
      have h1 := congrArg Prod.fst h
      have h2 := congrArg Prod.snd h
      simp only [Prod.fst] at h1
      simp only [Prod.snd] at h2
      have h1' : createdPost u body nowMs freshPostId freshIds = post := by
        simpa using h1
      refine ⟨h1'.symm, ?_⟩
      rw [← h1']
      exact h2.symm
    · rw [if_neg hval] at h
      exact absurd (congrArg Prod.fst h) (by simp)

/-! ### Computation lemmas for processed entries -/

theorem processUpdateEntry_matched (orig : PassportPost) (ist : Nat) (pe : PayloadEntry)
    (e : Passport) (nd : (orig.passports.map Passport.id).Nodup) (he : e ∈ orig.passports)
    (hid : pe.suppliedId = some e.id) :
    processUpdateEntry orig ist pe =
      { procId := some e.id, procPostDate := e.postDate, procFields := pe.fields } := by
  unfold processUpdateEntry
  simp only [hid]
  rw [find?_id_self nd he]

theorem processUpdateEntry_new_noId (orig : PassportPost) (ist : Nat) (pe : PayloadEntry)
    (hid : pe.suppliedId = none) :
    processUpdateEntry orig ist pe =
      { procId := none, procPostDate := ist, procFields := pe.fields } := by
  unfold processUpdateEntry
  simp only [hid]

theorem processUpdateEntry_new_unmatched (orig : PassportPost) (ist : Nat)
    (pe : PayloadEntry) (x : Nat) (hid : pe.suppliedId = some x)
    (hfind : orig.passports.find? (fun q => q.id == x) = none) :
    processUpdateEntry orig ist pe =
      { procId := some x, procPostDate := ist, procFields := pe.fields } := by
  unfold processUpdateEntry
  simp only [hid, hfind]

theorem updatedPost_getElem? (u : User) (orig : PassportPost) (body : List PayloadEntry)
    (nowMs : Nat) (fI : Nat → Nat) (k : Nat) :
    (updatedPost u orig body nowMs fI).passports[k]? =
      (body[k]?).map fun pe =>
        { id := (processUpdateEntry orig (getCurrentIST nowMs) pe).procId.getD (fI k),
          postDate := (processUpdateEntry orig (getCurrentIST nowMs) pe).procPostDate,
          fields := trimFields (processUpdateEntry orig (getCurrentIST nowMs) pe).procFields } := by
  simp only [updatedPost]
  rw [castEntries_getElem?, List.getElem?_map]
  cases body[k]? with
  | none => simp
  | some pe => simp

theorem createdPost_getElem? (u : User) (body : List PayloadEntry)
    (nowMs freshPostId : Nat) (fI : Nat → Nat) (k : Nat) :
    (createdPost u body nowMs freshPostId fI).passports[k]? =
      (body[k]?).map fun pe =>
        { id := pe.suppliedId.getD (fI k), postDate := getCurrentIST nowMs,
          fields := trimFields pe.fields } := by
  simp only [createdPost]
  rw [castEntries_getElem?, List.getElem?_map]
  cases body[k]? with
  | none => simp
  | some pe => simp

/-- C1: for every stored post and every existing entry of it, both the
post-level update (with a supplied entry carrying that entry's identifier)
and the entry-level update (addressed by that identifier) persist the entry
with its postDate unchanged, for every caller-supplied payload including ones
supplying a postDate value (`suppliedPostDate` is arbitrary in both parts). -/
theorem existing_entry_postDate_preserved :
    (∀ (s : Store) (u : User) (pid : Nat) (body : List PayloadEntry) (nowMs : Nat)
        (fI : Nat → Nat) (orig : PassportPost) (e : Passport) (pe : PayloadEntry)
        (k : Nat) (upd : PassportPost) (s2 : Store),
      findPost s pid = some orig →
      (orig.passports.map Passport.id).Nodup →
      e ∈ orig.passports →
      body[k]? = some pe →
      pe.suppliedId = some e.id →
      updatePassportPost s u pid body nowMs fI = (.ok upd, s2) →
      findPost s2 pid = some upd ∧
      ∃ q, upd.passports[k]? = some q ∧ q.id = e.id ∧ q.postDate = e.postDate)
    ∧ (∀ (s : Store) (u : User) (eid : Nat) (body : PayloadEntry) (post : PassportPost)
        (i : Nat) (e : Passport) (upd : Passport) (s2 : Store),
      locatePassport s eid = some (post, i, e) →
      updateSinglePassport s u eid body = (.ok upd, s2) →
      upd.postDate = e.postDate ∧
      ∃ p', findPost s2 post.id = some p' ∧ p'.passports[i]? = some upd) := by
  constructor
  · intro s u pid body nowMs fI orig e pe k upd s2 hfind nd he hk hid hok
    rw [updatePost_found_eq s u pid body nowMs fI orig hfind] at hok
    obtain ⟨hupd, hs2⟩ := updatePostFound_ok s u orig body nowMs fI upd s2 hok
    subst hupd
    subst hs2
    constructor
    · have hpid : orig.id = pid := (findPost_some hfind).2
      have hfp := findPost_savePost
        (show ∃ r ∈ s, r.id = (updatedPost u orig body nowMs fI).id from
          ⟨orig, (findPost_some hfind).1, rfl⟩)
      rw [show (updatedPost u orig body nowMs fI).id = pid from hpid] at hfp
      exact hfp
    · refine ⟨{ id := e.id, postDate := e.postDate, fields := trimFields pe.fields },
        ?_, rfl, rfl⟩
      rw [updatedPost_getElem?, hk]
      simp only [Option.map_some']
      rw [processUpdateEntry_matched orig (getCurrentIST nowMs) pe e nd he hid]
      rfl
  · intro s u eid body post i e upd s2 hloc hok
    rw [updateSingle_found_eq s u eid body post i e hloc] at hok
    obtain ⟨hupd, hs2⟩ := updateSingleFound_ok s u body post i e upd s2 hok
    subst hupd
    subst hs2
    obtain ⟨hmem, hfe⟩ := locate_some hloc
    have hlt : i < post.passports.length := lt_length_of_findEntry hfe
    refine ⟨rfl,
      { post with
        passports := post.passports.set i (mkUpdatedPassport e body),
        updatedBy := some u.id }, ?_, ?_⟩
    · exact findPost_savePost ⟨post, hmem, rfl⟩
    · exact List.getElem?_set_self hlt

/-- Witness for C1: the owner updates `postAB` (post 1), payload carrying
entry 10's identifier and a caller-supplied postDate 999; the stored entry 10
keeps its original postDate 5, and the entry-level update likewise. -/
theorem existing_entry_postDate_preserved_witness :
    (findPost (savePost [postAB] (updatedPost ownerU postAB
        [{ suppliedId := some 10, suppliedPostDate := some 999, fields := fieldsB }] 0
        (fun j => 500 + j))) 1 =
      some (updatedPost ownerU postAB
        [{ suppliedId := some 10, suppliedPostDate := some 999, fields := fieldsB }] 0
        (fun j => 500 + j)) ∧
    ∃ q, (updatedPost ownerU postAB
        [{ suppliedId := some 10, suppliedPostDate := some 999, fields := fieldsB }] 0
        (fun j => 500 + j)).passports[0]? = some q ∧
      q.id = entryA.id ∧ q.postDate = entryA.postDate) :=
  (existing_entry_postDate_preserved).1 [postAB] ownerU 1
    [{ suppliedId := some 10, suppliedPostDate := some 999, fields := fieldsB }] 0
    (fun j => 500 + j) postAB entryA
    { suppliedId := some 10, suppliedPostDate := some 999, fields := fieldsB } 0
    (updatedPost ownerU postAB
      [{ suppliedId := some 10, suppliedPostDate := some 999, fields := fieldsB }] 0
      (fun j => 500 + j))
    (savePost [postAB] (updatedPost ownerU postAB
      [{ suppliedId := some 10, suppliedPostDate := some 999, fields := fieldsB }] 0
      (fun j => 500 + j)))
    (by rfl) (by decide) (by decide) (by rfl) (by rfl) (by rfl)

/-- C5: every entry stored by post creation, and every entry of a post-level
update with no matching existing identifier, gets postDate equal to the
request-processing time (`getCurrentIST nowMs`), for every caller-supplied
payload including ones carrying their own `suppliedPostDate`. -/
theorem new_entry_postDate_is_request_time :
    (∀ (s : Store) (u : User) (body : List PayloadEntry) (nowMs freshPostId : Nat)
        (fI : Nat → Nat) (post : PassportPost) (s2 : Store) (k : Nat) (q : Passport),
      createPassportPost s u body nowMs freshPostId fI = (.ok post, s2) →
      post.passports[k]? = some q →
      q.postDate = getCurrentIST nowMs)
    ∧ (∀ (s : Store) (u : User) (pid : Nat) (body : List PayloadEntry) (nowMs : Nat)
        (fI : Nat → Nat) (orig upd : PassportPost) (s2 : Store) (k : Nat)
        (pe : PayloadEntry),
      findPost s pid = some orig →
      updatePassportPost s u pid body nowMs fI = (.ok upd, s2) →
      body[k]? = some pe →
      (pe.suppliedId = none ∨
        ∃ x, pe.suppliedId = some x ∧
          orig.passports.find? (fun r => r.id == x) = none) →
      ∃ q, upd.passports[k]? = some q ∧ q.postDate = getCurrentIST nowMs) := by
  constructor
  · intro s u body nowMs fpid fI post s2 k q hok hq
    obtain ⟨hpost, hs2⟩ := createPassport_ok s u body nowMs fpid fI post s2 hok
    subst hpost
    rw [createdPost_getElem?] at hq
    cases hbk : body[k]? with
    | none => rw [hbk] at hq; simp at hq
    | some pe =>
      rw [hbk] at hq
      simp only [Option.map_some'] at hq
      have := Option.some.inj hq
      rw [← this]
  · intro s u pid body nowMs fI orig upd s2 k pe hfind hok hk hnew
    rw [updatePost_found_eq s u pid body nowMs fI orig hfind] at hok
    obtain ⟨hupd, hs2⟩ := updatePostFound_ok s u orig body nowMs fI upd s2 hok
    subst hupd
    rcases hnew with hnone | ⟨x, hsome, hmiss⟩
    · refine ⟨{ id := fI k, postDate := getCurrentIST nowMs
                fields := trimFields pe.fields }, ?_, rfl⟩
      rw [updatedPost_getElem?, hk]
      simp only [Option.map_some']
      rw [processUpdateEntry_new_noId orig (getCurrentIST nowMs) pe hnone]
      rfl
    · refine ⟨{ id := x, postDate := getCurrentIST nowMs
                fields := trimFields pe.fields }, ?_, rfl⟩
      rw [updatedPost_getElem?, hk]
      simp only [Option.map_some']
      rw [processUpdateEntry_new_unmatched orig (getCurrentIST nowMs) pe x hsome hmiss]
      rfl

/-- Witness for C5: creating a post with one entry that carries its own
suppliedPostDate 42 at time 100 stores the entry with postDate
`getCurrentIST 100`, not 42. -/
theorem new_entry_postDate_witness :
    ({ id := 500, postDate := getCurrentIST 100,
        fields := trimFields fieldsA } : Passport).postDate = getCurrentIST 100 :=
  (new_entry_postDate_is_request_time).1 [] ownerU
    [{ suppliedId := none, suppliedPostDate := some 42, fields := fieldsA }] 100 7
    (fun j => 500 + j)
    (createdPost ownerU
      [{ suppliedId := none, suppliedPostDate := some 42, fields := fieldsA }] 100 7
      (fun j => 500 + j))
    ([] ++ [createdPost ownerU
      [{ suppliedId := none, suppliedPostDate := some 42, fields := fieldsA }] 100 7
      (fun j => 500 + j)])
    0 { id := 500, postDate := getCurrentIST 100, fields := trimFields fieldsA }
    (by rfl) (by rfl)

/-- C6 counterexample: a post-level update of `postAB` supplying one entry
with the non-matching identifier 99 stores that entry with identifier 99 —
the caller-supplied identifier is kept, not replaced by a freshly generated
one (the generator would have produced 500 for position 0). -/
theorem unmatched_entry_id_counterexample :
    (updatePassportPost [postAB] ownerU 1
        [{ suppliedId := some 99, suppliedPostDate := some 7, fields := fieldsA }] 0
        (fun j => 500 + j)).1 =
      HRes.ok (updatedPost ownerU postAB
        [{ suppliedId := some 99, suppliedPostDate := some 7, fields := fieldsA }] 0
        (fun j => 500 + j)) ∧
    (updatedPost ownerU postAB
        [{ suppliedId := some 99, suppliedPostDate := some 7, fields := fieldsA }] 0
        (fun j => 500 + j)).passports.map Passport.id = [99] ∧
    (99 : Nat) ≠ 500 := by
  exact ⟨by rfl, by rfl, by decide⟩

/-- C6 amended: in the post-level update, a supplied entry with no matching
existing identifier is stored as a new entry with postDate set to the current
time; it receives a freshly generated identifier only when the caller supplied
none — the controller's new-entry branch spreads the supplied `_id` through,
and the schema's subdocument array (`src/db/connection.js`) keeps a supplied
identifier — so a caller-supplied non-matching identifier is kept as the
stored entry's identifier. -/
theorem unmatched_entry_id_amended (s : Store) (u : User) (pid : Nat)
    (body : List PayloadEntry) (nowMs : Nat) (fI : Nat → Nat)
    (orig upd : PassportPost) (s2 : Store) (k : Nat) (pe : PayloadEntry)
    (hfind : findPost s pid = some orig)
    (hok : updatePassportPost s u pid body nowMs fI = (.ok upd, s2))
    (hk : body[k]? = some pe) :
    (pe.suppliedId = none →
      upd.passports[k]? =
        some { id := fI k, postDate := getCurrentIST nowMs,
               fields := trimFields pe.fields })
    ∧ (∀ x, pe.suppliedId = some x →
        orig.passports.find? (fun r => r.id == x) = none →
        upd.passports[k]? =
          some { id := x, postDate := getCurrentIST nowMs,
                 fields := trimFields pe.fields }) := by
  rw [updatePost_found_eq s u pid body nowMs fI orig hfind] at hok
  obtain ⟨hupd, hs2⟩ := updatePostFound_ok s u orig body nowMs fI upd s2 hok
  subst hupd
  constructor
  · intro hnone
    rw [updatedPost_getElem?, hk]
    simp only [Option.map_some']
    rw [processUpdateEntry_new_noId orig (getCurrentIST nowMs) pe hnone]
    rfl
  · intro x hsome hmiss
    rw [updatedPost_getElem?, hk]
    simp only [Option.map_some']
    rw [processUpdateEntry_new_unmatched orig (getCurrentIST nowMs) pe x hsome hmiss]
    rfl

/-- Witness for C6's amended statement: the entry supplied with non-matching
identifier 99 is stored with identifier 99 and postDate `getCurrentIST 0`. -/
theorem unmatched_entry_id_amended_witness :
    (updatedPost ownerU postAB
        [{ suppliedId := some 99, suppliedPostDate := some 7, fields := fieldsA }] 0
        (fun j => 500 + j)).passports[0]? =
      some { id := 99, postDate := getCurrentIST 0, fields := trimFields fieldsA } :=
  (unmatched_entry_id_amended [postAB] ownerU 1
    [{ suppliedId := some 99, suppliedPostDate := some 7, fields := fieldsA }] 0
    (fun j => 500 + j) postAB
    (updatedPost ownerU postAB
      [{ suppliedId := some 99, suppliedPostDate := some 7, fields := fieldsA }] 0
      (fun j => 500 + j))
    (savePost [postAB] (updatedPost ownerU postAB
      [{ suppliedId := some 99, suppliedPostDate := some 7, fields := fieldsA }] 0
      (fun j => 500 + j)))
    0 { suppliedId := some 99, suppliedPostDate := some 7, fields := fieldsA }
    (by rfl) (by rfl) (by rfl)).2 99 (by rfl) (by rfl)

/-- C3: deleting one entry by its identifier from a post with two or more
entries leaves the post existing, its entries list equal to the original list
with exactly the targeted entry (the one at the located index, carrying the
requested identifier) removed — the remaining entries unchanged and in their
original relative order. -/
theorem delete_entry_keeps_rest (s : Store) (u : User) (eid : Nat)
    (post : PassportPost) (i : Nat) (q : Passport)
    (hloc : locatePassport s eid = some (post, i, q))
    (hlen : 2 ≤ post.passports.length) :
    (deleteSinglePassport s u eid).1 = .ok (eid, post.id) ∧
    post.passports[i]? = some q ∧ q.id = eid ∧
    ∃ p', findPost (deleteSinglePassport s u eid).2 post.id = some p' ∧
      p'.passports = post.passports.take i ++ post.passports.drop (i + 1) ∧
      p'.createdBy = post.createdBy := by
  obtain ⟨hmem, hfe⟩ := locate_some hloc
  obtain ⟨hget, hqid⟩ := findEntry_some hfe
  rw [deleteSingle_found_eq s u eid post i q hloc]
  have hne1 : post.passports.length ≠ 1 := by omega
  refine ⟨rfl, hget, hqid, ?_⟩
  refine ⟨{ post with
    passports := post.passports.eraseIdx i,
    updatedBy := some u.id }, ?_, ?_, rfl⟩
  · show findPost (applyDelete u s post i) post.id = _
    unfold applyDelete
    rw [if_neg hne1]
    exact findPost_savePost ⟨post, hmem, rfl⟩
  · show post.passports.eraseIdx i = _
    exact List.eraseIdx_eq_take_drop_succ post.passports i

/-- Witness for C3: deleting entry 10 from the two-entry post `postAB` keeps
the post with exactly `entryB` remaining. -/
theorem delete_entry_keeps_rest_witness :
    (deleteSinglePassport [postAB] ownerU 10).1 = .ok (10, 1) ∧
    postAB.passports[0]? = some entryA ∧ entryA.id = 10 ∧
    ∃ p', findPost (deleteSinglePassport [postAB] ownerU 10).2 postAB.id = some p' ∧
      p'.passports = postAB.passports.take 0 ++ postAB.passports.drop 1 ∧
      p'.createdBy = postAB.createdBy :=
  delete_entry_keeps_rest [postAB] ownerU 10 postAB 0 entryA (by rfl) (by decide)

/-- C2: deleting the only entry of a single-entry post — via the single-entry
delete or the batch delete — removes the whole post from the store, and both
deletion operations preserve the invariant that no stored post has an empty
entries list. -/
theorem last_entry_collapses_post :
    (∀ (s : Store) (u : User) (p : PassportPost) (e : Passport),
      WFStore s → p ∈ s → p.passports = [e] →
      (deleteSinglePassport s u e.id).1 = .ok (e.id, p.id) ∧
      findPost (deleteSinglePassport s u e.id).2 p.id = none ∧
      findPost (deleteMultiplePassports s u [e.id]).2 p.id = none)
    ∧ (∀ (s : Store) (u : User) (eid : Nat),
      (∀ r ∈ s, r.passports ≠ []) →
      ∀ r ∈ (deleteSinglePassport s u eid).2, r.passports ≠ [])
    ∧ (∀ (s : Store) (u : User) (ids : List Nat),
      (∀ r ∈ s, r.passports ≠ []) →
      ∀ r ∈ (deleteMultiplePassports s u ids).2, r.passports ≠ []) := by
  refine ⟨?_, ?_, ?_⟩
  · intro s u p e wf hp hpe
    have hfe : findEntry p.passports e.id = some (0, e) := by
      rw [hpe]
      simp [findEntry]
    have hloc := locate_of_findEntry wf hp hfe
    have hlen1 : p.passports.length = 1 := by rw [hpe]; rfl
    have happ : applyDelete u s p 0 = s.eraseP (fun q => q.id == p.id) := by
      unfold applyDelete
      rw [if_pos hlen1]
    have hnone : findPost (s.eraseP (fun q => q.id == p.id)) p.id = none := by
      apply findPost_eq_none
      intro r hr
      exact id_ne_of_mem_eraseP wf.1 hp hr
    refine ⟨?_, ?_, ?_⟩
    · rw [deleteSingle_found_eq s u e.id p 0 e hloc]
    · rw [deleteSingle_found_eq s u e.id p 0 e hloc]
      show findPost (applyDelete u s p 0) p.id = none
      rw [happ]
      exact hnone
    · rw [deleteMulti_eq s u [e.id] (by simp)]
      show findPost ([e.id].foldl (batchStep u) (s, [], [])).1 p.id = none
      have hfold : [e.id].foldl (batchStep u) (s, [], []) = batchStep u (s, [], []) e.id := by
        simp [List.foldl]
      rw [hfold, batchStep_found_eq u (s, [], []) e.id p 0 e hloc]
      show findPost (applyDelete u s p 0) p.id = none
      rw [happ]
      exact hnone
  · intro s u eid h
    cases hloc : locatePassport s eid with
    | none =>
      rw [deleteSingle_fail_eq s u eid hloc]
      exact h
    | some t =>
      obtain ⟨post, i, q⟩ := t
      rw [deleteSingle_found_eq s u eid post i q hloc]
      exact applyDelete_nonempty u s post i q eid (locate_some hloc).2 h
  · intro s u ids h
    by_cases hids : ids = []
    · rw [deleteMulti_empty_eq s u ids hids]
      exact h
    · rw [deleteMulti_eq s u ids hids]
      exact fold_nonempty u ids (s, [], []) h

/-- Witness for C2: deleting entry 10, the only entry of `postSolo`, removes
the post (post 2) entirely, under both deletion operations. -/
theorem last_entry_collapses_post_witness :
    (deleteSinglePassport [postSolo] ownerU entryA.id).1 = .ok (entryA.id, postSolo.id) ∧
    findPost (deleteSinglePassport [postSolo] ownerU entryA.id).2 postSolo.id = none ∧
    findPost (deleteMultiplePassports [postSolo] ownerU [entryA.id]).2 postSolo.id = none :=
  (last_entry_collapses_post).1 [postSolo] ownerU postSolo entryA
    ⟨by decide, by decide⟩ (by decide) (by rfl)

/-- C9 counterexample: batch-deleting the single existing identifier 10
succeeds for every supplied identifier, and then the response's errors field
is absent (`none`) — not present and empty as the claim states. -/
theorem batch_errors_absent_counterexample :
    (deleteMultiplePassports [postSolo] ownerU [10]).1 =
      HRes.ok { success := true, count := 1, deleted := [10], errors := none } := by
  rfl

/-- C9 amended: the batch-deletion response always contains the count and the
list of successfully deleted identifiers (with count equal to the list's
length, and every supplied identifier accounted for either as deleted or in
an error entry); the per-identifier errors list is present exactly when it is
non-empty — on full success the errors key is absent rather than an empty
list. -/
theorem batch_response_shape (s : Store) (u : User) (ids : List Nat) (h : ids ≠ []) :
    ∃ cnt del errs s2,
      deleteMultiplePassports s u ids =
        (.ok { success := true, count := cnt, deleted := del, errors := errs }, s2) ∧
      cnt = del.length ∧
      del.length + (match errs with | none => 0 | some es => es.length) = ids.length ∧
      (∀ es, errs = some es → es ≠ []) ∧
      (errs = none → cnt = ids.length) := by
  have hcnt := fold_count u ids (s, [], [])
  simp only [List.length_nil] at hcnt
  by_cases hemp : (ids.foldl (batchStep u) (s, [], [])).2.2.isEmpty
  · have h0 : (ids.foldl (batchStep u) (s, [], [])).2.2.length = 0 := by
      rw [List.length_eq_zero]
      exact List.isEmpty_iff.mp hemp
    refine ⟨(ids.foldl (batchStep u) (s, [], [])).2.1.length,
      (ids.foldl (batchStep u) (s, [], [])).2.1.map Passport.id, none,
      (ids.foldl (batchStep u) (s, [], [])).1, ?_, ?_, ?_, ?_, ?_⟩
    · rw [deleteMulti_eq s u ids h]
      simp only [if_pos hemp]
    · exact (List.length_map _ _).symm
    · rw [List.length_map]
      show (ids.foldl (batchStep u) (s, [], [])).2.1.length + 0 = ids.length
      omega
    · intro es hes
      exact absurd hes (by simp)
    · intro _
      omega
  · refine ⟨(ids.foldl (batchStep u) (s, [], [])).2.1.length,
      (ids.foldl (batchStep u) (s, [], [])).2.1.map Passport.id,
      some (ids.foldl (batchStep u) (s, [], [])).2.2,
      (ids.foldl (batchStep u) (s, [], [])).1, ?_, ?_, ?_, ?_, ?_⟩
    · rw [deleteMulti_eq s u ids h]
      simp only [if_neg hemp]
    · exact (List.length_map _ _).symm
    · rw [List.length_map]
      show (ids.foldl (batchStep u) (s, [], [])).2.1.length +
        (ids.foldl (batchStep u) (s, [], [])).2.2.length = ids.length
      omega
    · intro es hes
      have hes' : es = (ids.foldl (batchStep u) (s, [], [])).2.2 :=
        (Option.some.inj hes).symm
      subst hes'
      intro hnil
      rw [hnil] at hemp
      simp at hemp
    · intro hes
      exact absurd hes (by simp)

/-- Witness for C9's amended statement at a concrete store with one post of
one entry, batch-deleting that entry's identifier. -/
theorem batch_response_shape_witness :
    ∃ cnt del errs s2,
      deleteMultiplePassports [postSolo] ownerU [10] =
        (.ok { success := true, count := cnt, deleted := del, errors := errs }, s2) ∧
      cnt = del.length ∧
      del.length + (match errs with | none => 0 | some es => es.length) = [10].length ∧
      (∀ es, errs = some es → es ≠ []) ∧
      (errs = none → cnt = [10].length) :=
  batch_response_shape [postSolo] ownerU [10] (by decide)

/-! ### Destructured equation lemmas for `batchStep` -/

theorem batchStep_eq_found (u : User) (s : Store) (d : List Passport)
    (es : List BatchErr) (eid : Nat) (post : PassportPost) (i : Nat) (q : Passport)
    (h : locatePassport s eid = some (post, i, q)) :
    batchStep u (s, d, es) eid = (applyDelete u s post i, d ++ [q], es) := by
  simp only [batchStep, h]

theorem batchStep_eq_fail (u : User) (s : Store) (d : List Passport)
    (es : List BatchErr) (eid : Nat)
    (h : locatePassport s eid = none) :
    batchStep u (s, d, es) eid =
      (s, d, es ++ [{ id := eid, message := "Passport not found" }]) := by
  simp only [batchStep, h]

/-- C8: batch deletion processes each supplied identifier independently: on
input [A, B, X] with A, B identifying existing entries and X identifying
none, the response reports deleted = [A, B] with success count 2, plus a
single NotFound error entry for X — X's miss does not abort the processing of
the other identifiers. -/
theorem batch_delete_independent (s : Store) (u : User) (A B X : Nat)
    (nd : (s.map PassportPost.id).Nodup)
    (hAB : A ≠ B) (hA : containsE s A) (hB : containsE s B) (hX : ¬ containsE s X) :
    ∃ s3, deleteMultiplePassports s u [A, B, X] =
      (.ok { success := true, count := 2, deleted := [A, B],
             errors := some [{ id := X, message := "Passport not found" }] }, s3) := by
  obtain ⟨tA, hlocA⟩ := Option.isSome_iff_exists.mp (locate_isSome.mpr hA)
  obtain ⟨pA, iA, qA⟩ := tA
  obtain ⟨hpA, hfeA⟩ := locate_some hlocA
  have hqA : qA.id = A := (findEntry_some hfeA).2
  have hB1 : containsE (applyDelete u s pA iA) B :=
    applyDelete_contains u s pA iA qA A B nd hpA hfeA (Ne.symm hAB) hB
  have hX1 : ¬ containsE (applyDelete u s pA iA) X :=
    not_contains_applyDelete u s pA iA X hpA hX
  obtain ⟨tB, hlocB⟩ := Option.isSome_iff_exists.mp (locate_isSome.mpr hB1)
  obtain ⟨pB, iB, qB⟩ := tB
  obtain ⟨hpB, hfeB⟩ := locate_some hlocB
  have hqB : qB.id = B := (findEntry_some hfeB).2
  have hX2 : ¬ containsE (applyDelete u (applyDelete u s pA iA) pB iB) X :=
    not_contains_applyDelete u (applyDelete u s pA iA) pB iB X hpB hX1
  have hlocX : locatePassport (applyDelete u (applyDelete u s pA iA) pB iB) X = none :=
    locate_eq_none_of_not_contains _ X hX2
  have hfold : [A, B, X].foldl (batchStep u) (s, [], []) =
      (applyDelete u (applyDelete u s pA iA) pB iB, [qA, qB],
        [{ id := X, message := "Passport not found" }]) := by
    simp only [List.foldl_cons, List.foldl_nil]
    rw [batchStep_eq_found u s [] [] A pA iA qA hlocA]
    simp only [List.nil_append]
    rw [batchStep_eq_found u (applyDelete u s pA iA) [qA] [] B pB iB qB hlocB]
    simp only [List.singleton_append]
    rw [batchStep_eq_fail u (applyDelete u (applyDelete u s pA iA) pB iB) [qA, qB] [] X hlocX]
    simp only [List.nil_append]
  refine ⟨applyDelete u (applyDelete u s pA iA) pB iB, ?_⟩
  rw [deleteMulti_eq s u [A, B, X] (by simp)]
  rw [hfold]
  simp only [List.map_cons, List.map_nil, hqA, hqB]
  rfl

/-- Witness for C8: on the two-entry post `postAB`, batch-deleting
[10, 11, 99] (10 and 11 exist, 99 does not) reports both deletions, count 2,
and one NotFound error for 99. -/
theorem batch_delete_independent_witness :
    ∃ s3, deleteMultiplePassports [postAB] ownerU [10, 11, 99] =
      (.ok { success := true, count := 2, deleted := [10, 11],
             errors := some [{ id := 99, message := "Passport not found" }] }, s3) :=
  batch_delete_independent [postAB] ownerU 10 11 99 (by decide) (by decide)
    (by decide) (by decide) (by decide)

end PassportApp
